import Mathlib

set_option maxHeartbeats 1000000

/-!
Shallow embedding of `service-t/jni/com_android_server_net_NetworkStatsService.cpp`.

The file under verification implements a network-statistics retrieval layer:
a counter selector (`getStatsType`), two legacy `/proc` table aggregators
(`parseIfaceStats` over `/proc/net/xt_qtaguid/iface_stat_fmt` and
`parseUidStats` over `/proc/net/xt_qtaguid/stats`), and four dispatcher
entry points (`nativeGetTotalStat`, `nativeGetIfaceStat`,
`nativeGetIfIndexStat`, `nativeGetUidStat`) that first try the external
bpf adapter and fall back to the legacy parsers.

Modelling conventions:
* `uint64_t` / `uint32_t` values are `Nat` reduced modulo `U64MOD` /
  `U32MOD` wherever the C code can overflow or convert.
* `jint` arguments are `Int`.
* A text file is a list of lines (each a `List Char`, as delivered by
  `fgets`), plus a flag recording whether `fclose` succeeds; `fopen`
  failure is the `none` case of `Option ProcFile`.
* The `sscanf` calls are modelled character by character for the exact
  format strings of the source: `%31s` takes at most 31 non-whitespace
  characters after skipping whitespace, `%u`-style conversions skip
  whitespace and read a nonempty run of decimal digits, `%x` reads
  hexadecimal digits, and literal characters must match exactly.
  (Sign prefixes accepted by C numeric conversions are not modelled;
  no claim depends on them.)
-/

/-- 2^64, the modulus of `uint64_t` arithmetic. -/
def U64MOD : Nat := 18446744073709551616

/-- 2^32, the modulus of `uint32_t` arithmetic. -/
def U32MOD : Nat := 4294967296

/-- `static const uint64_t UNKNOWN = -1;` i.e. 2^64 - 1. -/
def UNKNOWN : Nat := 18446744073709551615

/-- `struct StatsValue` — the four aggregated `uint64_t` counters. -/
structure StatsValue where
  rxBytes : Nat
  rxPackets : Nat
  txBytes : Nat
  txPackets : Nat
  deriving DecidableEq, Repr

/-- A freshly created record `StatsValue stats = {};` is all zero. -/
def StatsValue.zero : StatsValue := ⟨0, 0, 0, 0⟩

/-- `uint64_t` addition (the C `+=` wraps modulo 2^64). -/
def add64 (a b : Nat) : Nat := (a + b) % U64MOD

/-- Pointwise `uint64_t` accumulation of one row into the record:
the four `stats->... += ...` statements of the source loops. -/
def statsAdd64 (r s : StatsValue) : StatsValue :=
  ⟨add64 r.rxBytes s.rxBytes, add64 r.rxPackets s.rxPackets,
   add64 r.txBytes s.txBytes, add64 r.txPackets s.txPackets⟩

/-- `getStatsType`: select one counter by kind; `RX_BYTES = 0`,
`RX_PACKETS = 1`, `TX_BYTES = 2`, `TX_PACKETS = 3`; the `switch`
default returns `UNKNOWN`.  The `jint` kind is modelled as `Int`. -/
def getStatsType (stats : StatsValue) (type : Int) : Nat :=
  if type = 0 then stats.rxBytes
  else if type = 1 then stats.rxPackets
  else if type = 2 then stats.txBytes
  else if type = 3 then stats.txPackets
  else UNKNOWN

/-- C `isspace` for the default locale (the whitespace that `sscanf`
directives skip). -/
def isCSpace (c : Char) : Bool :=
  c == ' ' || c == '\t' || c == '\n' || c == '\x0b' || c == '\x0c' || c == '\r'

/-- Skip a run of whitespace characters. -/
def dropSpaces (s : List Char) : List Char := s.dropWhile isCSpace

/-- The `%31s`-style conversion: skip whitespace, then read a nonempty
token of at most `width` non-whitespace characters.  Returns the token
and the rest of the input (scanning resumes right after the token, so a
longer field leaves its tail in the input). -/
def scanToken (width : Nat) (s : List Char) : Option (List Char × List Char) :=
  let t := dropSpaces s
  let tok := (t.takeWhile (fun c => !isCSpace c)).take width
  if tok.isEmpty then none else some (tok, t.drop tok.length)

/-- Value of a run of decimal digits. -/
def decVal (s : List Char) : Nat := s.foldl (fun a c => a * 10 + (c.toNat - 48)) 0

/-- Skip whitespace, then read a nonempty run of decimal digits. -/
def scanDec (s : List Char) : Option (Nat × List Char) :=
  let t := dropSpaces s
  let ds := t.takeWhile Char.isDigit
  if ds.isEmpty then none else some (decVal ds, t.drop ds.length)

/-- `%SCNu64`: a decimal conversion stored into a `uint64_t`. -/
def scanU64 (s : List Char) : Option (Nat × List Char) :=
  match scanDec s with
  | some (v, r) => some (v % U64MOD, r)
  | none => none

/-- `%SCNu32` / `%u`: a decimal conversion stored into a `uint32_t`. -/
def scanU32 (s : List Char) : Option (Nat × List Char) :=
  match scanDec s with
  | some (v, r) => some (v % U32MOD, r)
  | none => none

/-- C `isxdigit`. -/
def isHexDigitC (c : Char) : Bool :=
  c.isDigit || (97 ≤ c.toNat && c.toNat ≤ 102) || (65 ≤ c.toNat && c.toNat ≤ 70)

/-- Value of one hexadecimal digit. -/
def hexVal (c : Char) : Nat :=
  if c.isDigit then c.toNat - 48
  else if c.toNat ≤ 70 then c.toNat - 55
  else c.toNat - 87

/-- `%SCNx64`: skip whitespace, then read a nonempty run of hexadecimal
digits into a `uint64_t`. -/
def scanHex64 (s : List Char) : Option (Nat × List Char) :=
  let t := dropSpaces s
  let ds := t.takeWhile isHexDigitC
  if ds.isEmpty then none
  else some ((ds.foldl (fun a c => a * 16 + hexVal c) 0) % U64MOD, t.drop ds.length)

/-- A literal character in a `sscanf` format: must match exactly. -/
def scanLit (c : Char) (s : List Char) : Option (List Char) :=
  match s with
  | [] => none
  | a :: r => if a = c then some r else none

/-- The data assigned by the first five conversions of the interface-table
`sscanf` (`%31s %SCNu64 %SCNu64 %SCNu64 %SCNu64 ...`): interface name and
the four counters that the loop accumulates. -/
structure IfaceLineData where
  name : List Char
  rxBytes : Nat
  rxPackets : Nat
  txBytes : Nat
  txPackets : Nat
  deriving DecidableEq, Repr

/-- One line of the interface table.  `matched >= 5` in the source means
exactly that the first five (assigned) conversions succeed — the later
`%*u` and tcp-counter conversions are never used by the aggregation, so
they are not modelled.  Returns `none` when fewer than five tokens parse. -/
def parseIfaceLine (line : List Char) : Option IfaceLineData :=
  match scanToken 31 line with
  | none => none
  | some (nm, r1) =>
    match scanU64 r1 with
    | none => none
    | some (rb, r2) =>
      match scanU64 r2 with
      | none => none
      | some (rp, r3) =>
        match scanU64 r3 with
        | none => none
        | some (tb, r4) =>
          match scanU64 r4 with
          | none => none
          | some (tp, _) => some ⟨nm, rb, rp, tb, tp⟩

/-- `!iface || !strcmp(iface, cur_iface)`: the query either asks for all
interfaces (`none`, the C `NULL`), or must equal the scanned name token. -/
def ifaceMatches (iface : Option (List Char)) (nm : List Char) : Bool :=
  match iface with
  | none => true
  | some q => q == nm

/-- The data assigned by the nine conversions of the uid-table `sscanf`
(`%SCNu32 %31s 0x%SCNx64 %u %u %SCNu64 %SCNu64 %SCNu64 %SCNu64`). -/
structure UidLineData where
  idx : Nat
  iface : List Char
  tag : Nat
  uid : Nat
  set : Nat
  rxBytes : Nat
  rxPackets : Nat
  txBytes : Nat
  txPackets : Nat
  deriving DecidableEq, Repr

/-- One line of the uid table.  The source requires the `sscanf` return
value to equal 9: all nine conversions must succeed, including the
literal `0x` before the hexadecimal tag. -/
def parseUidLine (line : List Char) : Option UidLineData :=
  match scanU32 line with
  | none => none
  | some (ix, r1) =>
    match scanToken 31 r1 with
    | none => none
    | some (ifc, r2) =>
      match scanLit '0' (dropSpaces r2) with
      | none => none
      | some r3 =>
        match scanLit 'x' r3 with
        | none => none
        | some r4 =>
          match scanHex64 r4 with
          | none => none
          | some (tg, r5) =>
            match scanU32 r5 with
            | none => none
            | some (cu, r6) =>
              match scanU32 r6 with
              | none => none
              | some (st, r7) =>
                match scanU64 r7 with
                | none => none
                | some (rb, r8) =>
                  match scanU64 r8 with
                  | none => none
                  | some (rp, r9) =>
                    match scanU64 r9 with
                    | none => none
                    | some (tb, r10) =>
                      match scanU64 r10 with
                      | none => none
                      | some (tp, _) => some ⟨ix, ifc, tg, cu, st, rb, rp, tb, tp⟩

/-- Contribution of one interface-table line: `some` of its four counters
when the line is well-formed and matches the query, else `none`. -/
def ifaceLineStat (iface : Option (List Char)) (line : List Char) : Option StatsValue :=
  match parseIfaceLine line with
  | some d => if ifaceMatches iface d.name then some ⟨d.rxBytes, d.rxPackets, d.txBytes, d.txPackets⟩ else none
  | none => none

/-- Contribution of one uid-table line: `some` of its four counters when
all nine tokens parse, `uid == cur_uid`, and `tag == 0`, else `none`. -/
def uidLineStat (uid : Nat) (line : List Char) : Option StatsValue :=
  match parseUidLine line with
  | some d => if uid = d.uid ∧ d.tag = 0 then some ⟨d.rxBytes, d.rxPackets, d.txBytes, d.txPackets⟩ else none
  | none => none

/-- The `while (fgets(...))` loop common to both parsers: fold over the
lines, accumulating each line's contribution (if any) into the record. -/
def accumLines (g : List Char → Option StatsValue) (r : StatsValue)
    (lines : List (List Char)) : StatsValue :=
  lines.foldl (fun acc line =>
    match g line with
    | some v => statsAdd64 acc v
    | none => acc) r

/-- The interface-table aggregation loop of `parseIfaceStats`. -/
def parseIfaceStatsLines (iface : Option (List Char)) (r : StatsValue)
    (lines : List (List Char)) : StatsValue :=
  accumLines (ifaceLineStat iface) r lines

/-- The uid-table aggregation loop of `parseUidStats`. -/
def parseUidStatsLines (uid : Nat) (r : StatsValue)
    (lines : List (List Char)) : StatsValue :=
  accumLines (uidLineStat uid) r lines

/-- The rows of the interface table that contribute to the aggregation:
well-formed (first five tokens parse) and matching (query unset or equal
to the line's name token), in file order. -/
def ifaceMatchingRows (iface : Option (List Char)) (lines : List (List Char)) :
    List StatsValue :=
  lines.filterMap (ifaceLineStat iface)

/-- The rows of the uid table that contribute: all nine tokens parse, the
user id equals the query, and the tag is exactly zero. -/
def uidMatchingRows (uid : Nat) (lines : List (List Char)) : List StatsValue :=
  lines.filterMap (uidLineStat uid)

/-- A successfully opened legacy proc table: the lines `fgets` yields and
whether the final `fclose` succeeds. -/
structure ProcFile where
  lines : List (List Char)
  closeOk : Bool
  deriving DecidableEq, Repr

/-- `parseIfaceStats`: `fopen` failure (`none`) returns -1 with the
record untouched; otherwise the loop accumulates into the caller's
record, and the return code is 0 unless `fclose` fails. -/
def parseIfaceStats (iface : Option (List Char)) (stats : StatsValue)
    (file : Option ProcFile) : Int × StatsValue :=
  match file with
  | none => (-1, stats)
  | some f =>
    let s := parseIfaceStatsLines iface stats f.lines
    (if f.closeOk then 0 else -1, s)

/-- `parseUidStats`: same open/close contract over the uid table; the
query uid is already a `uint32_t` here. -/
def parseUidStats (uid : Nat) (stats : StatsValue)
    (file : Option ProcFile) : Int × StatsValue :=
  match file with
  | none => (-1, stats)
  | some f =>
    let s := parseUidStatsLines uid stats f.lines
    (if f.closeOk then 0 else -1, s)

/-- The C implicit conversion `jint -> uint32_t` applied when
`nativeGetUidStat` passes its `jint uid` to `parseUidStats(const uint32_t
uid, ...)`: two's-complement reinterpretation, i.e. reduction mod 2^32. -/
def jintToU32 (i : Int) : Nat := (i % (4294967296 : Int)).toNat

/-- Modelled from the spec: the primary-source adapter
(`bpfGetIfaceStats`, `bpfGetIfIndexStats`, `bpfGetUidStats` from the
external `netdbpf` library, not part of this repository) and the two
legacy proc files.  Per spec §4.2 each adapter probe either populates the
zero-initialised record with a snapshot (modelled as `some snapshot`) or
signals unavailability leaving the record alone (`none`).  The iface
adapter's argument is the C `const char* iface`, `none` for `NULL`. -/
structure World where
  bpfIfaceStats : Option (List Char) → Option StatsValue
  bpfIfIndexStats : Int → Option StatsValue
  bpfUidStats : Int → Option StatsValue
  ifaceStatsFile : Option ProcFile
  uidStatsFile : Option ProcFile

/-- `nativeGetTotalStat`: try the bpf adapter with a NULL interface; on
failure fall back to `parseIfaceStats(NULL, ...)`; if that also fails,
return `UNKNOWN`. -/
def nativeGetTotalStat (w : World) (type : Int) : Nat :=
  match w.bpfIfaceStats none with
  | some s => getStatsType s type
  | none =>
    let p := parseIfaceStats none StatsValue.zero w.ifaceStatsFile
    if p.1 = 0 then getStatsType p.2 type else UNKNOWN

/-- `nativeGetIfaceStat`: a NULL `jstring` (the `none` argument, where
`ScopedUtfChars` yields a NULL `c_str`) returns `UNKNOWN` at once;
otherwise the same adapter-then-parser cascade keyed by the name. -/
def nativeGetIfaceStat (w : World) (iface : Option (List Char)) (type : Int) : Nat :=
  match iface with
  | none => UNKNOWN
  | some ifc =>
    match w.bpfIfaceStats (some ifc) with
    | some s => getStatsType s type
    | none =>
      let p := parseIfaceStats (some ifc) StatsValue.zero w.ifaceStatsFile
      if p.1 = 0 then getStatsType p.2 type else UNKNOWN

/-- `nativeGetIfIndexStat`: adapter only — no legacy fallback. -/
def nativeGetIfIndexStat (w : World) (ifindex : Int) (type : Int) : Nat :=
  match w.bpfIfIndexStats ifindex with
  | some s => getStatsType s type
  | none => UNKNOWN

/-- `nativeGetUidStat`: adapter keyed by the `jint` uid; the fallback
passes the uid through the `jint -> uint32_t` conversion. -/
def nativeGetUidStat (w : World) (uid : Int) (type : Int) : Nat :=
  match w.bpfUidStats uid with
  | some s => getStatsType s type
  | none =>
    let p := parseUidStats (jintToU32 uid) StatsValue.zero w.uidStatsFile
    if p.1 = 0 then getStatsType p.2 type else UNKNOWN

/-- The whitespace-delimited name token at the start of an interface-table
line (before any width limit is applied). -/
def nameToken (line : List Char) : List Char :=
  (dropSpaces line).takeWhile (fun c => !isCSpace c)

/-- Failure of the legacy-parser I/O path: the file cannot be opened, or
closing it fails. -/
def fileBad (file : Option ProcFile) : Prop :=
  file = none ∨ ∃ f, file = some f ∧ f.closeOk = false

/-! ### Helper lemmas -/

theorem accumLines_eq_foldl (g : List Char → Option StatsValue)
    (lines : List (List Char)) :
    ∀ r : StatsValue, accumLines g r lines = (lines.filterMap g).foldl statsAdd64 r := by
  induction lines with
  | nil => intro r; rfl
  | cons l rest ih =>
    intro r
    cases h : g l with
    | none =>
      simp only [accumLines, List.foldl_cons, List.filterMap_cons, h] at *
      exact ih r
    | some v =>
      simp only [accumLines, List.foldl_cons, List.filterMap_cons, h] at *
      exact ih (statsAdd64 r v)

theorem foldl_statsAdd64_spec (rows : List StatsValue) :
    ∀ r : StatsValue, r.rxBytes < U64MOD → r.rxPackets < U64MOD →
    r.txBytes < U64MOD → r.txPackets < U64MOD →
    rows.foldl statsAdd64 r =
      ⟨(r.rxBytes + (rows.map StatsValue.rxBytes).sum) % U64MOD,
       (r.rxPackets + (rows.map StatsValue.rxPackets).sum) % U64MOD,
       (r.txBytes + (rows.map StatsValue.txBytes).sum) % U64MOD,
       (r.txPackets + (rows.map StatsValue.txPackets).sum) % U64MOD⟩ := by
  induction rows with
  | nil =>
    intro r h1 h2 h3 h4
    simp only [List.foldl_nil, List.map_nil, List.sum_nil, Nat.add_zero]
    rw [Nat.mod_eq_of_lt h1, Nat.mod_eq_of_lt h2, Nat.mod_eq_of_lt h3, Nat.mod_eq_of_lt h4]
  | cons s rest ih =>
    intro r h1 h2 h3 h4
    have hM : 0 < U64MOD := by decide
    simp only [List.foldl_cons, List.map_cons, List.sum_cons]
    rw [ih (statsAdd64 r s) (Nat.mod_lt _ hM) (Nat.mod_lt _ hM) (Nat.mod_lt _ hM) (Nat.mod_lt _ hM)]
    simp only [statsAdd64, add64]
    rw [Nat.mod_add_mod, Nat.mod_add_mod, Nat.mod_add_mod, Nat.mod_add_mod,
      Nat.add_assoc, Nat.add_assoc, Nat.add_assoc, Nat.add_assoc]

theorem accumLines_skip (g : List Char → Option StatsValue) (r : StatsValue)
    (pre post : List (List Char)) (l : List Char) (h : g l = none) :
    accumLines g r (pre ++ l :: post) = accumLines g r (pre ++ post) := by
  simp only [accumLines, List.foldl_append, List.foldl_cons, h]

theorem scanToken_name (w : Nat) (s nm r : List Char)
    (h : scanToken w s = some (nm, r)) :
    nm = ((dropSpaces s).takeWhile (fun c => !isCSpace c)).take w := by
  simp only [scanToken] at h
  split at h
  · exact absurd h (by simp)
  · exact (Prod.mk.injEq _ _ _ _ ▸ Option.some.injEq _ _ ▸ h).1.symm

theorem parseIfaceLine_name (line : List Char) (d : IfaceLineData)
    (h : parseIfaceLine line = some d) :
    d.name = (nameToken line).take 31 := by
  simp only [parseIfaceLine] at h
  cases h1 : scanToken 31 line with
  | none => simp only [h1] at h; exact Option.noConfusion h
  | some p =>
    obtain ⟨nm, r1⟩ := p
    simp only [h1] at h
    have hnm : nm = (nameToken line).take 31 := scanToken_name 31 line nm r1 h1
    cases h2 : scanU64 r1 with
    | none => simp only [h2] at h; exact Option.noConfusion h
    | some p2 =>
      obtain ⟨rb, r2⟩ := p2
      simp only [h2] at h
      cases h3 : scanU64 r2 with
      | none => simp only [h3] at h; exact Option.noConfusion h
      | some p3 =>
        obtain ⟨rp, r3⟩ := p3
        simp only [h3] at h
        cases h4 : scanU64 r3 with
        | none => simp only [h4] at h; exact Option.noConfusion h
        | some p4 =>
          obtain ⟨tb, r4⟩ := p4
          simp only [h4] at h
          cases h5 : scanU64 r4 with
          | none => simp only [h5] at h; exact Option.noConfusion h
          | some p5 =>
            obtain ⟨tp, r5⟩ := p5
            simp only [h5] at h
            cases h
            exact hnm

theorem uidLineStat_tagged (uid : Nat) (l : List Char) (d : UidLineData)
    (hd : parseUidLine l = some d) (ht : d.tag ≠ 0) : uidLineStat uid l = none := by
  simp [uidLineStat, hd, ht]

/-! ### Claim theorems -/

/-- C4: the counter selector `getStatsType` is a pure total function: for
each of the four defined kinds (RX_BYTES = 0, RX_PACKETS = 1, TX_BYTES = 2,
TX_PACKETS = 3) it returns exactly the corresponding field of the record,
and for any other kind value it returns the unknown sentinel, which is
the maximum 64-bit unsigned value 2^64 - 1. -/
theorem getStatsType_total_selector (s : StatsValue) (t : Int) :
    getStatsType s 0 = s.rxBytes ∧ getStatsType s 1 = s.rxPackets ∧
    getStatsType s 2 = s.txBytes ∧ getStatsType s 3 = s.txPackets ∧
    UNKNOWN = 2 ^ 64 - 1 ∧
    (t ≠ 0 → t ≠ 1 → t ≠ 2 → t ≠ 3 → getStatsType s t = UNKNOWN) := by
  refine ⟨rfl, rfl, rfl, rfl, by decide, ?_⟩
  intro h0 h1 h2 h3
  simp [getStatsType, h0, h1, h2, h3]

theorem getStatsType_total_selector_witness :
    getStatsType ⟨1, 2, 3, 4⟩ 7 = UNKNOWN :=
  (getStatsType_total_selector ⟨1, 2, 3, 4⟩ 7).2.2.2.2.2
    (by decide) (by decide) (by decide) (by decide)

/-- C8: for every counter kind, `nativeGetIfaceStat` invoked with a
null/absent interface name (`none`, where `ScopedUtfChars` yields a NULL
`c_str`) returns the unknown sentinel immediately; the result holds for
every world, i.e. independently of the primary adapter and of the legacy
table, so neither source is attempted. -/
theorem null_iface_short_circuit (w : World) (type : Int) :
    nativeGetIfaceStat w none type = UNKNOWN := rfl

/-- C7: the by-interface-index query has no fallback: whenever the
adapter reports unavailability, `nativeGetIfIndexStat` returns the
unknown sentinel; moreover its result never depends on either legacy
proc file, so no legacy parser is ever invoked. -/
theorem ifindex_no_fallback
    (bI : Option (List Char) → Option StatsValue) (bX bU : Int → Option StatsValue)
    (f1 u1 f2 u2 : Option ProcFile) (ifindex type : Int) :
    (bX ifindex = none →
       nativeGetIfIndexStat ⟨bI, bX, bU, f1, u1⟩ ifindex type = UNKNOWN) ∧
    nativeGetIfIndexStat ⟨bI, bX, bU, f1, u1⟩ ifindex type
      = nativeGetIfIndexStat ⟨bI, bX, bU, f2, u2⟩ ifindex type := by
  constructor
  · intro h
    simp [nativeGetIfIndexStat, h]
  · rfl

theorem ifindex_no_fallback_witness :
    nativeGetIfIndexStat ⟨fun _ => none, fun _ => none, fun _ => none, none, none⟩ 7 3
      = UNKNOWN :=
  (ifindex_no_fallback (fun _ => none) (fun _ => none) (fun _ => none)
    none none none none 7 3).1 rfl

/-- C1: for every sequence of input lines, the interface-table
aggregation loop produces a record whose four counters are the exact
sums of the rx-bytes, rx-packets, tx-bytes, tx-packets columns over
exactly the lines that are well-formed and match the query
(`ifaceMatchingRows`, i.e. the first five tokens parse and the query
name is unset or equals the line's name token), provided each total fits
in a `uint64_t`; and a line with fewer than five parsed tokens
contributes nothing and never aborts aggregation of the remaining lines
(removing it leaves the aggregation unchanged). -/
theorem iface_table_aggregation (iface : Option (List Char)) (lines : List (List Char)) :
    (((ifaceMatchingRows iface lines).map StatsValue.rxBytes).sum < U64MOD →
     ((ifaceMatchingRows iface lines).map StatsValue.rxPackets).sum < U64MOD →
     ((ifaceMatchingRows iface lines).map StatsValue.txBytes).sum < U64MOD →
     ((ifaceMatchingRows iface lines).map StatsValue.txPackets).sum < U64MOD →
     parseIfaceStatsLines iface StatsValue.zero lines =
       ⟨((ifaceMatchingRows iface lines).map StatsValue.rxBytes).sum,
        ((ifaceMatchingRows iface lines).map StatsValue.rxPackets).sum,
        ((ifaceMatchingRows iface lines).map StatsValue.txBytes).sum,
        ((ifaceMatchingRows iface lines).map StatsValue.txPackets).sum⟩) ∧
    (∀ (r : StatsValue) (pre post : List (List Char)) (l : List Char),
       parseIfaceLine l = none →
       parseIfaceStatsLines iface r (pre ++ l :: post)
         = parseIfaceStatsLines iface r (pre ++ post)) := by
  constructor
  · intro h1 h2 h3 h4
    rw [parseIfaceStatsLines, accumLines_eq_foldl,
      foldl_statsAdd64_spec _ StatsValue.zero (by decide) (by decide) (by decide) (by decide)]
    simp only [ifaceMatchingRows] at h1 h2 h3 h4
    simp only [StatsValue.zero, ifaceMatchingRows, Nat.zero_add,
      Nat.mod_eq_of_lt h1, Nat.mod_eq_of_lt h2, Nat.mod_eq_of_lt h3, Nat.mod_eq_of_lt h4]
  · intro r pre post l h
    exact accumLines_skip _ r pre post l (by simp [ifaceLineStat, h])

theorem iface_table_aggregation_witness :
    parseIfaceStatsLines (some "wlan0".toList) StatsValue.zero
      ["wlan0 100 5 200 10 0 0 0 0 0 0 0 0 0 0 0".toList,
       "lo 9 9 9 9 0 0 0 0 0 0 0 0 0 0 0".toList,
       "wlan0 notanumber".toList,
       "wlan0 50 2 0 0 0 0 0 0 0 0 0 0 0 0 0".toList]
      = StatsValue.mk 150 7 200 10 :=
  ((iface_table_aggregation (some "wlan0".toList)
    ["wlan0 100 5 200 10 0 0 0 0 0 0 0 0 0 0 0".toList,
     "lo 9 9 9 9 0 0 0 0 0 0 0 0 0 0 0".toList,
     "wlan0 notanumber".toList,
     "wlan0 50 2 0 0 0 0 0 0 0 0 0 0 0 0 0".toList]).1
    (by decide) (by decide) (by decide) (by decide)).trans (by decide)

/-- C2: in the uid-table aggregation loop, a line contributes to the
record if and only if all nine tokens parse, the parsed user-id equals
the query uid and the tag is exactly zero (`uidMatchingRows`): the
record equals the exact column sums over exactly those rows (when the
totals fit in a `uint64_t`); a well-formed row with tag ≠ 0 never
contributes — removing it changes neither the loop's result nor any
`nativeGetUidStat` result — and neither does a line with fewer than
nine parsed tokens. -/
theorem uid_table_tag_zero (uid : Nat) (lines : List (List Char)) :
    (((uidMatchingRows uid lines).map StatsValue.rxBytes).sum < U64MOD →
     ((uidMatchingRows uid lines).map StatsValue.rxPackets).sum < U64MOD →
     ((uidMatchingRows uid lines).map StatsValue.txBytes).sum < U64MOD →
     ((uidMatchingRows uid lines).map StatsValue.txPackets).sum < U64MOD →
     parseUidStatsLines uid StatsValue.zero lines =
       ⟨((uidMatchingRows uid lines).map StatsValue.rxBytes).sum,
        ((uidMatchingRows uid lines).map StatsValue.rxPackets).sum,
        ((uidMatchingRows uid lines).map StatsValue.txBytes).sum,
        ((uidMatchingRows uid lines).map StatsValue.txPackets).sum⟩) ∧
    (∀ (r : StatsValue) (pre post : List (List Char)) (l : List Char) (d : UidLineData),
       parseUidLine l = some d → d.tag ≠ 0 →
       parseUidStatsLines uid r (pre ++ l :: post)
         = parseUidStatsLines uid r (pre ++ post)) ∧
    (∀ (r : StatsValue) (pre post : List (List Char)) (l : List Char),
       parseUidLine l = none →
       parseUidStatsLines uid r (pre ++ l :: post)
         = parseUidStatsLines uid r (pre ++ post)) ∧
    (∀ (bI : Option (List Char) → Option StatsValue) (bX bU : Int → Option StatsValue)
       (ifile : Option ProcFile) (ck : Bool) (pre post : List (List Char))
       (u ty : Int) (l : List Char) (d : UidLineData),
       parseUidLine l = some d → d.tag ≠ 0 →
       nativeGetUidStat ⟨bI, bX, bU, ifile, some ⟨pre ++ l :: post, ck⟩⟩ u ty
         = nativeGetUidStat ⟨bI, bX, bU, ifile, some ⟨pre ++ post, ck⟩⟩ u ty) := by
  refine ⟨?_, ?_, ?_, ?_⟩
  · intro h1 h2 h3 h4
    rw [parseUidStatsLines, accumLines_eq_foldl,
      foldl_statsAdd64_spec _ StatsValue.zero (by decide) (by decide) (by decide) (by decide)]
    simp only [uidMatchingRows] at h1 h2 h3 h4
    simp only [StatsValue.zero, uidMatchingRows, Nat.zero_add,
      Nat.mod_eq_of_lt h1, Nat.mod_eq_of_lt h2, Nat.mod_eq_of_lt h3, Nat.mod_eq_of_lt h4]
  · intro r pre post l d hd ht
    exact accumLines_skip _ r pre post l (uidLineStat_tagged uid l d hd ht)
  · intro r pre post l h
    exact accumLines_skip _ r pre post l (by simp [uidLineStat, h])
  · intro bI bX bU ifile ck pre post u ty l d hd ht
    cases hb : bU u with
    | some s => simp [nativeGetUidStat, hb]
    | none =>
      simp only [nativeGetUidStat, hb, parseUidStats, parseUidStatsLines]
      rw [accumLines_skip _ _ pre post l (uidLineStat_tagged (jintToU32 u) l d hd ht)]

theorem uid_table_tag_zero_witness :
    parseUidStatsLines 1000 StatsValue.zero
      ["2 wlan0 0x0 1000 0 10 1 2 3".toList,
       "3 wlan0 0x5 1000 0 999 9 9 9".toList]
      = StatsValue.mk 10 1 2 3 :=
  ((uid_table_tag_zero 1000
    ["2 wlan0 0x0 1000 0 10 1 2 3".toList,
     "3 wlan0 0x5 1000 0 999 9 9 9".toList]).1
    (by decide) (by decide) (by decide) (by decide)).trans (by decide)

/-- C3: for the total, by-interface-name and by-user-id dispatchers: if
the adapter succeeds, the result is the selected counter of the
adapter's record, for every content of the legacy table files (which are
universally quantified, so the legacy parser's input never influences
the result — no double read); if the adapter fails, the fallback parser
is attempted and, when the file opens and closes successfully, the
selected counter of the record it aggregated is returned; if both fail,
the unknown sentinel is returned. -/
theorem dispatcher_cascade
    (bI : Option (List Char) → Option StatsValue) (bX bU : Int → Option StatsValue)
    (ifile ufile : Option ProcFile) (name : List Char) (uid type : Int) :
    (∀ s, bI none = some s →
       nativeGetTotalStat ⟨bI, bX, bU, ifile, ufile⟩ type = getStatsType s type) ∧
    (bI none = none → ∀ f, ifile = some f → f.closeOk = true →
       nativeGetTotalStat ⟨bI, bX, bU, ifile, ufile⟩ type
         = getStatsType (parseIfaceStatsLines none StatsValue.zero f.lines) type) ∧
    (bI none = none → fileBad ifile →
       nativeGetTotalStat ⟨bI, bX, bU, ifile, ufile⟩ type = UNKNOWN) ∧
    (∀ s, bI (some name) = some s →
       nativeGetIfaceStat ⟨bI, bX, bU, ifile, ufile⟩ (some name) type = getStatsType s type) ∧
    (bI (some name) = none → ∀ f, ifile = some f → f.closeOk = true →
       nativeGetIfaceStat ⟨bI, bX, bU, ifile, ufile⟩ (some name) type
         = getStatsType (parseIfaceStatsLines (some name) StatsValue.zero f.lines) type) ∧
    (bI (some name) = none → fileBad ifile →
       nativeGetIfaceStat ⟨bI, bX, bU, ifile, ufile⟩ (some name) type = UNKNOWN) ∧
    (∀ s, bU uid = some s →
       nativeGetUidStat ⟨bI, bX, bU, ifile, ufile⟩ uid type = getStatsType s type) ∧
    (bU uid = none → ∀ f, ufile = some f → f.closeOk = true →
       nativeGetUidStat ⟨bI, bX, bU, ifile, ufile⟩ uid type
         = getStatsType (parseUidStatsLines (jintToU32 uid) StatsValue.zero f.lines) type) ∧
    (bU uid = none → fileBad ufile →
       nativeGetUidStat ⟨bI, bX, bU, ifile, ufile⟩ uid type = UNKNOWN) := by
  refine ⟨?_, ?_, ?_, ?_, ?_, ?_, ?_, ?_, ?_⟩
  · intro s h; simp [nativeGetTotalStat, h]
  · intro h f hf hc; subst hf; simp [nativeGetTotalStat, h, parseIfaceStats, hc]
  · intro h hbad
    rcases hbad with hnone | ⟨f, hf, hc⟩
    · subst hnone; simp [nativeGetTotalStat, h, parseIfaceStats]
    · subst hf; simp [nativeGetTotalStat, h, parseIfaceStats, hc]
  · intro s h; simp [nativeGetIfaceStat, h]
  · intro h f hf hc; subst hf; simp [nativeGetIfaceStat, h, parseIfaceStats, hc]
  · intro h hbad
    rcases hbad with hnone | ⟨f, hf, hc⟩
    · subst hnone; simp [nativeGetIfaceStat, h, parseIfaceStats]
    · subst hf; simp [nativeGetIfaceStat, h, parseIfaceStats, hc]
  · intro s h; simp [nativeGetUidStat, h]
  · intro h f hf hc; subst hf; simp [nativeGetUidStat, h, parseUidStats, hc]
  · intro h hbad
    rcases hbad with hnone | ⟨f, hf, hc⟩
    · subst hnone; simp [nativeGetUidStat, h, parseUidStats]
    · subst hf; simp [nativeGetUidStat, h, parseUidStats, hc]

theorem dispatcher_cascade_witness :
    nativeGetTotalStat ⟨fun _ => some ⟨1, 2, 3, 4⟩, fun _ => none, fun _ => none, none, none⟩ 2
      = 3 :=
  ((dispatcher_cascade (fun _ => some ⟨1, 2, 3, 4⟩) (fun _ => none) (fun _ => none)
    none none [] 0 2).1 ⟨1, 2, 3, 4⟩ rfl).trans (by decide)

/-- C5: every failure path of every dispatcher operation converges on
the same unknown sentinel (adapter failure plus open or close failure of
the legacy table, a null interface name, and adapter failure for the
index query); and when the adapter fails and the fallback parser
succeeds, the returned value is the selected counter of a record
accumulated from the all-zero record exclusively by the parser's
matching rows — never a partially populated residue of the failed
source. -/
theorem failure_paths_sentinel (w : World) (name : List Char) (ifindex uid type : Int) :
    (w.bpfIfaceStats none = none → fileBad w.ifaceStatsFile →
       nativeGetTotalStat w type = UNKNOWN) ∧
    (nativeGetIfaceStat w none type = UNKNOWN) ∧
    (w.bpfIfaceStats (some name) = none → fileBad w.ifaceStatsFile →
       nativeGetIfaceStat w (some name) type = UNKNOWN) ∧
    (w.bpfIfIndexStats ifindex = none →
       nativeGetIfIndexStat w ifindex type = UNKNOWN) ∧
    (w.bpfUidStats uid = none → fileBad w.uidStatsFile →
       nativeGetUidStat w uid type = UNKNOWN) ∧
    (w.bpfIfaceStats (some name) = none → ∀ f, w.ifaceStatsFile = some f → f.closeOk = true →
       nativeGetIfaceStat w (some name) type
         = getStatsType ((ifaceMatchingRows (some name) f.lines).foldl statsAdd64 StatsValue.zero) type) ∧
    (w.bpfUidStats uid = none → ∀ f, w.uidStatsFile = some f → f.closeOk = true →
       nativeGetUidStat w uid type
         = getStatsType ((uidMatchingRows (jintToU32 uid) f.lines).foldl statsAdd64 StatsValue.zero) type) := by
  refine ⟨?_, rfl, ?_, ?_, ?_, ?_, ?_⟩
  · intro h hbad
    rcases hbad with hnone | ⟨f, hf, hc⟩
    · simp [nativeGetTotalStat, h, parseIfaceStats, hnone]
    · simp [nativeGetTotalStat, h, parseIfaceStats, hf, hc]
  · intro h hbad
    rcases hbad with hnone | ⟨f, hf, hc⟩
    · simp [nativeGetIfaceStat, h, parseIfaceStats, hnone]
    · simp [nativeGetIfaceStat, h, parseIfaceStats, hf, hc]
  · intro h; simp [nativeGetIfIndexStat, h]
  · intro h hbad
    rcases hbad with hnone | ⟨f, hf, hc⟩
    · simp [nativeGetUidStat, h, parseUidStats, hnone]
    · simp [nativeGetUidStat, h, parseUidStats, hf, hc]
  · intro h f hf hc
    simp only [nativeGetIfaceStat, h, parseIfaceStats, hf, hc, if_pos rfl, if_true]
    rw [parseIfaceStatsLines, accumLines_eq_foldl]
    rfl
  · intro h f hf hc
    simp only [nativeGetUidStat, h, parseUidStats, hf, hc, if_pos rfl, if_true]
    rw [parseUidStatsLines, accumLines_eq_foldl]
    rfl

theorem failure_paths_sentinel_witness :
    nativeGetUidStat ⟨fun _ => none, fun _ => none, fun _ => none, none, none⟩ 5 3
      = UNKNOWN :=
  (failure_paths_sentinel ⟨fun _ => none, fun _ => none, fun _ => none, none, none⟩
    [] 0 5 3).2.2.2.2.1 rfl (Or.inl rfl)

/-- C6: each legacy parser returns an I/O error (-1) exactly when the
table file cannot be opened or closing it fails, and success (0)
otherwise, regardless of whether any line matched — zero matching rows
leave the record exactly as it started (all zero when zero-initialised);
the return code is never anything but 0 or -1; and at the dispatcher
level a parser I/O error with the adapter unavailable yields the unknown
sentinel. -/
theorem parser_io_error_contract (iface : Option (List Char)) (uid : Nat)
    (r : StatsValue) (file : Option ProcFile) :
    ((parseIfaceStats iface r file).1 = 0 ↔ ∃ f, file = some f ∧ f.closeOk = true) ∧
    ((parseIfaceStats iface r file).1 = 0 ∨ (parseIfaceStats iface r file).1 = -1) ∧
    ((parseUidStats uid r file).1 = 0 ↔ ∃ f, file = some f ∧ f.closeOk = true) ∧
    ((parseUidStats uid r file).1 = 0 ∨ (parseUidStats uid r file).1 = -1) ∧
    (∀ f, file = some f → ifaceMatchingRows iface f.lines = [] →
       (parseIfaceStats iface r file).2 = r) ∧
    (∀ f, file = some f → uidMatchingRows uid f.lines = [] →
       (parseUidStats uid r file).2 = r) ∧
    (∀ (w : World) (type : Int), w.bpfIfaceStats none = none → w.ifaceStatsFile = none →
       nativeGetTotalStat w type = UNKNOWN) ∧
    (∀ (w : World) (u ty : Int), w.bpfUidStats u = none → w.uidStatsFile = none →
       nativeGetUidStat w u ty = UNKNOWN) := by
  refine ⟨?_, ?_, ?_, ?_, ?_, ?_, ?_, ?_⟩
  · cases file with
    | none => simp [parseIfaceStats]
    | some f =>
      cases hc : f.closeOk with
      | false => simp [parseIfaceStats, hc]
      | true => simp [parseIfaceStats, hc]
  · cases file with
    | none => simp [parseIfaceStats]
    | some f =>
      cases hc : f.closeOk with
      | false => simp [parseIfaceStats, hc]
      | true => simp [parseIfaceStats, hc]
  · cases file with
    | none => simp [parseUidStats]
    | some f =>
      cases hc : f.closeOk with
      | false => simp [parseUidStats, hc]
      | true => simp [parseUidStats, hc]
  · cases file with
    | none => simp [parseUidStats]
    | some f =>
      cases hc : f.closeOk with
      | false => simp [parseUidStats, hc]
      | true => simp [parseUidStats, hc]
  · intro f hf hrows
    subst hf
    simp only [parseIfaceStats, parseIfaceStatsLines, accumLines_eq_foldl]
    rw [show f.lines.filterMap (ifaceLineStat iface) = ifaceMatchingRows iface f.lines from rfl,
      hrows]
    rfl
  · intro f hf hrows
    subst hf
    simp only [parseUidStats, parseUidStatsLines, accumLines_eq_foldl]
    rw [show f.lines.filterMap (uidLineStat uid) = uidMatchingRows uid f.lines from rfl,
      hrows]
    rfl
  · intro w type h hfile
    simp [nativeGetTotalStat, h, parseIfaceStats, hfile]
  · intro w u ty h hfile
    simp [nativeGetUidStat, h, parseUidStats, hfile]

theorem parser_io_error_contract_witness :
    (parseIfaceStats (some "eth0".toList) StatsValue.zero
      (some ⟨["wlan0 1 2 3 4".toList], true⟩)).2 = StatsValue.zero :=
  (parser_io_error_contract (some "eth0".toList) 0 StatsValue.zero
    (some ⟨["wlan0 1 2 3 4".toList], true⟩)).2.2.2.2.1
    ⟨["wlan0 1 2 3 4".toList], true⟩ rfl (by decide)

/-- C9: the interface-table scan reads the line's name token through
`%31s`, so the scanned name (`d.name`) is exactly the first 31
characters of the line's whitespace-delimited name token; consequently
a query name longer than 31 characters never equals the scanned name of
any parsed row, and a 31-character query name matches a parsed row
exactly when the row's name token begins with those 31 characters (even
if the actual token is longer). -/
theorem iface_name_trunc_31 (line : List Char) (d : IfaceLineData)
    (h : parseIfaceLine line = some d) :
    d.name = (nameToken line).take 31 ∧
    (∀ q : List Char, 31 < q.length → ifaceMatches (some q) d.name = false) ∧
    (∀ q : List Char, q.length = 31 →
       (ifaceMatches (some q) d.name = true ↔ (nameToken line).take 31 = q)) := by
  have hn := parseIfaceLine_name line d h
  refine ⟨hn, ?_, ?_⟩
  · intro q hq
    have hlen : d.name.length ≤ 31 := by
      rw [hn]
      exact List.length_take_le 31 (nameToken line)
    simp only [ifaceMatches, beq_eq_false_iff_ne, ne_eq]
    intro he
    rw [← he] at hlen
    omega
  · intro q hq
    simp only [ifaceMatches, beq_iff_eq]
    constructor
    · intro he
      rw [← hn, ← he]
    · intro he
      rw [hn, he]

theorem iface_name_trunc_31_witness :
    parseIfaceLine "abcdefghijklmnopqrstuvwxyz0123499 5 200 10".toList
      = some ⟨"abcdefghijklmnopqrstuvwxyz01234".toList, 99, 5, 200, 10⟩ ∧
    ifaceMatches (some "abcdefghijklmnopqrstuvwxyz012345".toList)
      (IfaceLineData.mk "abcdefghijklmnopqrstuvwxyz01234".toList 99 5 200 10).name = false :=
  ⟨by decide,
   (iface_name_trunc_31 "abcdefghijklmnopqrstuvwxyz0123499 5 200 10".toList
     ⟨"abcdefghijklmnopqrstuvwxyz01234".toList, 99, 5, 200, 10⟩ (by decide)).2.1
     "abcdefghijklmnopqrstuvwxyz012345".toList (by decide)⟩

/-- C10: `nativeGetUidStat` accepts its uid as a signed integer (`jint`)
but passes it to the parser after the C implicit conversion to
`uint32_t` (`jintToU32`): for every negative uid in the signed 32-bit
range the converted key is the two's-complement reinterpretation
`uid + 2^32` — in particular -1 becomes 4294967295 — so with the
adapter unavailable the query aggregates exactly the tag-zero rows
whose user-id field equals that reinterpreted value. -/
theorem uid_negative_reinterpret
    (bI : Option (List Char) → Option StatsValue) (bX bU : Int → Option StatsValue)
    (ifile : Option ProcFile) (f : ProcFile) (uid type : Int) :
    (uid < 0 → -2147483648 ≤ uid → jintToU32 uid = (uid + 4294967296).toNat) ∧
    jintToU32 (-1) = 4294967295 ∧
    (uid < 0 → -2147483648 ≤ uid → bU uid = none → f.closeOk = true →
       nativeGetUidStat ⟨bI, bX, bU, ifile, some f⟩ uid type
         = getStatsType
             ((uidMatchingRows ((uid + 4294967296).toNat) f.lines).foldl statsAdd64 StatsValue.zero)
             type) := by
  have hconv : uid < 0 → -2147483648 ≤ uid → jintToU32 uid = (uid + 4294967296).toNat := by
    intro h1 h2
    have hm : uid % 4294967296 = uid + 4294967296 := by omega
    rw [jintToU32, hm]
  refine ⟨hconv, by decide, ?_⟩
  intro h1 h2 hb hc
  simp only [nativeGetUidStat, hb, parseUidStats, hc, if_pos rfl, if_true]
  rw [parseUidStatsLines, accumLines_eq_foldl, hconv h1 h2]
  rfl

theorem uid_negative_reinterpret_witness :
    nativeGetUidStat ⟨fun _ => none, fun _ => none, fun _ => none, none,
      some ⟨["2 wlan0 0x0 4294967295 0 10 1 20 2".toList], true⟩⟩ (-1) 0 = 10 :=
  ((uid_negative_reinterpret (fun _ => none) (fun _ => none) (fun _ => none) none
    ⟨["2 wlan0 0x0 4294967295 0 10 1 20 2".toList], true⟩ (-1) 0).2.2
    (by decide) (by decide) rfl rfl).trans (by decide)
